import Mathlib

/-!
Verification development for the topic content pipeline of a three.js tour
application.  The embedded components are:

* the document parser (`parseTopicFile`, `parseFrontmatter`, `coerceValue`),
* the content model builder (`loadTopics`, `sortTopics`, `validateFrontmatter`),
* the camera choreographer (`goTo`, `next`, `prev`, `update`),
* the panel renderer (`registerPage`, `setActivePage`, `updatePanels`,
  `wrapText`).

JavaScript numbers are modelled exactly: `JsNumber` is a rational together
with the non-finite values, so arithmetic carries no floating-point rounding.
Camera orientation (quaternions and the `lookAt` renormalisation) is
abstracted by an explicit function parameter, since no claim inspects
orientation; everything else follows the source line by line.
-/

/-- JavaScript number: exact rational, infinities, or NaN.  Finite values are
exact rationals (no floating-point rounding), which is faithful for every
quantity the claims mention. -/
inductive JsNumber where
  | finite (q : ℚ)
  | posInf
  | negInf
  | nan
deriving DecidableEq

/-- Negation of a JavaScript number (used for a leading minus sign). -/
def jsNeg : JsNumber → JsNumber
  | .finite q => .finite (-q)
  | .posInf => .negInf
  | .negInf => .posInf
  | .nan => .nan

/-- JavaScript whitespace (the set recognised by `trim`, `split(/\s+/)` and
`StringToNumber`): ASCII blanks plus NBSP, BOM and the line separators. -/
def isJsWs (c : Char) : Bool :=
  c == ' ' || c == '\t' || c == '\n' || c == '\r' || c == Char.ofNat 11 ||
    c == Char.ofNat 12 || c == Char.ofNat 160 || c == Char.ofNat 0x2028 ||
    c == Char.ofNat 0x2029 || c == Char.ofNat 0xFEFF

/-- Drop leading JavaScript whitespace from a character list. -/
def trimLeadWs (cs : List Char) : List Char := cs.dropWhile isJsWs

/-- Drop trailing JavaScript whitespace from a character list. -/
def trimTrailWs (cs : List Char) : List Char := (cs.reverse.dropWhile isJsWs).reverse

/-- JavaScript `String.prototype.trim`. -/
def jsTrim (s : String) : String := String.mk (trimTrailWs (trimLeadWs s.toList))

/-- JavaScript `String.prototype.trimStart`. -/
def jsTrimStart (s : String) : String := String.mk (trimLeadWs s.toList)

/-- JavaScript `String.prototype.trimEnd`. -/
def jsTrimEnd (s : String) : String := String.mk (trimTrailWs s.toList)

/-- `t.isPrefixOf s` on the character lists: JavaScript `startsWith`. -/
def strStarts (s pre : String) : Bool := pre.toList.isPrefixOf s.toList

/-- Suffix test on the character lists: JavaScript `endsWith`. -/
def strEnds (s suf : String) : Bool := suf.toList.isSuffixOf s.toList

/-- The one-character string containing a double quote. -/
def dquote : String := String.singleton '"'

/-- The one-character string containing a single quote (character 39). -/
def squote : String := String.singleton (Char.ofNat 39)

/-- JavaScript `Array.prototype.join(sep)`. -/
def joinWith (sep : String) : List String → String
  | [] => ""
  | [x] => x
  | x :: y :: xs => x ++ sep ++ joinWith sep (y :: xs)

/-- Value of a digit list in a given base, most significant first. -/
def digitsVal (base : ℕ) (ds : List ℕ) : ℕ := ds.foldl (fun acc d => acc * base + d) 0

/-- Decimal digit value of a character, if it is one. -/
def decDigitVal (c : Char) : Option ℕ :=
  if c.isDigit then some (c.toNat - 48) else none

/-- Hexadecimal digit value of a character, if it is one. -/
def hexDigitVal (c : Char) : Option ℕ :=
  if c.isDigit then some (c.toNat - 48)
  else if 'a' ≤ c ∧ c ≤ 'f' then some (c.toNat - 87)
  else if 'A' ≤ c ∧ c ≤ 'F' then some (c.toNat - 55)
  else none

/-- Octal digit value of a character, if it is one. -/
def octDigitVal (c : Char) : Option ℕ :=
  if '0' ≤ c ∧ c ≤ '7' then some (c.toNat - 48) else none

/-- Binary digit value of a character, if it is one. -/
def binDigitVal (c : Char) : Option ℕ :=
  if c = '0' ∨ c = '1' then some (c.toNat - 48) else none

/-- Map every character through a digit reader, failing if any is invalid. -/
def charsDigits (f : Char → Option ℕ) : List Char → Option (List ℕ)
  | [] => some []
  | c :: cs =>
    match f c, charsDigits f cs with
    | some d, some ds => some (d :: ds)
    | _, _ => none

/-- Numeric value of `intPart . fracPart × 10^e`, as the exact rational
`digits(intPart fracPart) × 10^(e − |fracPart|)` (built with `mkRat` so that
it evaluates by kernel reduction). -/
def decValue (intPart fracPart : List Char) (e : ℤ) : ℚ :=
  let m : ℕ := digitsVal 10 ((intPart ++ fracPart).map (fun c => c.toNat - 48))
  if 0 ≤ e then mkRat ((m : ℤ) * (10 : ℤ) ^ e.toNat) ((10 : ℕ) ^ fracPart.length)
  else mkRat (m : ℤ) ((10 : ℕ) ^ (fracPart.length + (-e).toNat))

/-- Digits of a decimal exponent (`StringToNumber` form, no sign here). -/
def expDigits (ds : List Char) : Option ℤ :=
  if ds = [] then none
  else if ds.all Char.isDigit then
    some ((digitsVal 10 (ds.map (fun c => c.toNat - 48)) : ℕ) : ℤ)
  else none

/-- Optional exponent part of a `StringToNumber` decimal literal; the whole
remainder must be consumed. -/
def parseExpPart : List Char → Option ℤ
  | [] => some 0
  | c :: rest =>
    if c = 'e' ∨ c = 'E' then
      match rest with
      | '+' :: ds => expDigits ds
      | '-' :: ds => (expDigits ds).map (fun n => -n)
      | ds => expDigits ds
    else none

/-- `StringToNumber` decimal literal (digits, optional fraction, optional
exponent), consuming the whole character list. -/
def parseDecimal (cs : List Char) : Option ℚ :=
  let intPart := cs.takeWhile Char.isDigit
  let rest1 := cs.dropWhile Char.isDigit
  match rest1 with
  | '.' :: rest2 =>
    let fracPart := rest2.takeWhile Char.isDigit
    let rest3 := rest2.dropWhile Char.isDigit
    if intPart = [] ∧ fracPart = [] then none
    else (parseExpPart rest3).map (fun e => decValue intPart fracPart e)
  | rest =>
    if intPart = [] then none
    else (parseExpPart rest).map (fun e => decValue intPart [] e)

/-- A radix literal body (after `0x`/`0o`/`0b`): at least one digit, all
consumed. -/
def radixVal (base : ℕ) (f : Char → Option ℕ) (cs : List Char) : Option ℚ :=
  if cs = [] then none
  else (charsDigits f cs).map (fun ds => ((digitsVal base ds : ℕ) : ℚ))

/-- `StringToNumber` after an optional sign: `Infinity` or a decimal literal. -/
def parseUnsigned (cs : List Char) : Option JsNumber :=
  if cs = ("Infinity").toList then some .posInf
  else (parseDecimal cs).map .finite

/-- `StringToNumber` with no sign: radix prefixes are allowed here. -/
def parseNoSign (cs : List Char) : Option JsNumber :=
  match cs with
  | '0' :: x :: rest =>
    if x = 'x' ∨ x = 'X' then (radixVal 16 hexDigitVal rest).map .finite
    else if x = 'o' ∨ x = 'O' then (radixVal 8 octDigitVal rest).map .finite
    else if x = 'b' ∨ x = 'B' then (radixVal 2 binDigitVal rest).map .finite
    else parseUnsigned cs
  | _ => parseUnsigned cs

/-- JavaScript `Number(string)` (the `StringToNumber` coercion): trims
whitespace, maps the empty string to `0`, recognises signed `Infinity`,
decimal literals and radix-prefixed literals, and yields NaN otherwise.
Finite values are exact (a huge exponent does not overflow to infinity as a
64-bit float would; no claim depends on that corner). -/
def jsStringToNumber (s : String) : JsNumber :=
  let cs := trimTrailWs (trimLeadWs s.toList)
  match cs with
  | [] => .finite 0
  | '+' :: rest =>
    match parseUnsigned rest with
    | some n => n
    | none => .nan
  | '-' :: rest =>
    match parseUnsigned rest with
    | some n => jsNeg n
    | none => .nan
  | _ =>
    match parseNoSign cs with
    | some n => n
    | none => .nan

/-- JavaScript value as produced by the frontmatter coercion: the JSON data
types (with exact numbers) are enough, since `coerceValue` only builds
strings, booleans, numbers and `JSON.parse` results. -/
inductive JsValue where
  | null
  | bool (b : Bool)
  | num (n : JsNumber)
  | str (s : String)
  | arr (elems : List JsValue)
  | obj (fields : List (String × JsValue))

/-- JavaScript truthiness of a `JsValue` (objects and arrays are always
truthy; `0`, NaN, the empty string, `false` and `null` are falsy). -/
def truthy : JsValue → Bool
  | .null => false
  | .bool b => b
  | .num (.finite q) => q != 0
  | .num .nan => false
  | .num _ => true
  | .str s => s != ""
  | .arr _ => true
  | .obj _ => true

/-- JSON insignificant whitespace. -/
def jsonWs (c : Char) : Bool := c == ' ' || c == '\t' || c == '\n' || c == '\r'

/-- Body of a JSON string after the opening quote, with the standard escape
sequences; returns the accumulated characters (reversed) and the remainder. -/
def jpStrAux : List Char → List Char → Option (List Char × List Char)
  | [], _ => none
  | '"' :: rest, acc => some (acc, rest)
  | '\\' :: e :: rest, acc =>
    if e = '"' then jpStrAux rest ('"' :: acc)
    else if e = '\\' then jpStrAux rest ('\\' :: acc)
    else if e = '/' then jpStrAux rest ('/' :: acc)
    else if e = 'b' then jpStrAux rest (Char.ofNat 8 :: acc)
    else if e = 'f' then jpStrAux rest (Char.ofNat 12 :: acc)
    else if e = 'n' then jpStrAux rest ('\n' :: acc)
    else if e = 'r' then jpStrAux rest ('\r' :: acc)
    else if e = 't' then jpStrAux rest ('\t' :: acc)
    else if e = 'u' then
      match rest with
      | h1 :: h2 :: h3 :: h4 :: rest2 =>
        match hexDigitVal h1, hexDigitVal h2, hexDigitVal h3, hexDigitVal h4 with
        | some a, some b, some c, some d =>
          jpStrAux rest2 (Char.ofNat (((a * 16 + b) * 16 + c) * 16 + d) :: acc)
        | _, _, _, _ => none
      | _ => none
    else none
  | c :: rest, acc => if c.toNat < 32 then none else jpStrAux rest (c :: acc)

/-- A JSON string literal after the opening quote. -/
def jpString (cs : List Char) : Option (String × List Char) :=
  (jpStrAux cs []).map (fun p => (String.mk p.1.reverse, p.2))

/-- Exponent digits of a JSON number, with the already-read sign. -/
def jsonExpDigits (cs : List Char) (sign : ℤ) : Option (ℤ × List Char) :=
  let ds := cs.takeWhile Char.isDigit
  if ds = [] then none
  else some (sign * ((digitsVal 10 (ds.map (fun c => c.toNat - 48)) : ℕ) : ℤ),
    cs.dropWhile Char.isDigit)

/-- Optional exponent of a JSON number. -/
def jsonExp : List Char → Option (ℤ × List Char)
  | [] => some (0, [])
  | c :: rest =>
    if c = 'e' ∨ c = 'E' then
      match rest with
      | '+' :: ds => jsonExpDigits ds 1
      | '-' :: ds => jsonExpDigits ds (-1)
      | ds => jsonExpDigits ds 1
    else some (0, c :: rest)

/-- Absolute part of a JSON number (strict grammar: no leading zeros, a
fraction needs digits). -/
def jsonNumAbs (cs : List Char) : Option (ℚ × List Char) :=
  let intPart := cs.takeWhile Char.isDigit
  let rest1 := cs.dropWhile Char.isDigit
  if intPart = [] then none
  else if 1 < intPart.length ∧ intPart.headD '0' = '0' then none
  else
    match rest1 with
    | '.' :: r2 =>
      let frac := r2.takeWhile Char.isDigit
      let r3 := r2.dropWhile Char.isDigit
      if frac = [] then none
      else (jsonExp r3).map (fun p => (decValue intPart frac p.1, p.2))
    | _ => (jsonExp rest1).map (fun p => (decValue intPart [] p.1, p.2))

/-- A JSON number, with optional leading minus. -/
def jsonNumber (cs : List Char) : Option (ℚ × List Char) :=
  match cs with
  | '-' :: rest => (jsonNumAbs rest).map (fun p => (-p.1, p.2))
  | _ => jsonNumAbs cs

/-- Mode of the fuel-indexed JSON parser: a value, the items of an array
being collected, or the fields of an object being collected. -/
inductive JPIn where
  | val
  | arrTail (acc : List JsValue)
  | objTail (acc : List (String × JsValue))

/-- Recursive descent JSON parser.  The fuel only bounds the nesting of
recursive entries; `jsonParse` supplies more fuel than any input can use
(each nested entry consumes at least one delimiter character). -/
def jpRun : ℕ → JPIn → List Char → Option (JsValue × List Char)
  | 0, _, _ => none
  | fuel + 1, .val, cs =>
    let cs1 := cs.dropWhile jsonWs
    match cs1 with
    | [] => none
    | c :: rest =>
      if c = '[' then
        match rest.dropWhile jsonWs with
        | ']' :: r2 => some (.arr [], r2)
        | _ => jpRun fuel (.arrTail []) rest
      else if c = Char.ofNat 123 then
        match rest.dropWhile jsonWs with
        | r1 =>
          match r1 with
          | r0 :: r2 =>
            if r0 = Char.ofNat 125 then some (.obj [], r2)
            else jpRun fuel (.objTail []) rest
          | [] => none
      else if c = '"' then
        (jpString rest).map (fun p => (.str p.1, p.2))
      else if c = 't' then
        if ("rue").toList.isPrefixOf rest then some (.bool true, rest.drop 3) else none
      else if c = 'f' then
        if ("alse").toList.isPrefixOf rest then some (.bool false, rest.drop 4) else none
      else if c = 'n' then
        if ("ull").toList.isPrefixOf rest then some (.null, rest.drop 3) else none
      else
        (jsonNumber cs1).map (fun p => (.num (.finite p.1), p.2))
  | fuel + 1, .arrTail acc, cs =>
    match jpRun fuel .val cs with
    | none => none
    | some (v, rest) =>
      match rest.dropWhile jsonWs with
      | ',' :: r2 => jpRun fuel (.arrTail (acc ++ [v])) r2
      | ']' :: r2 => some (.arr (acc ++ [v]), r2)
      | _ => none
  | fuel + 1, .objTail acc, cs =>
    match cs.dropWhile jsonWs with
    | '"' :: r1 =>
      match jpString r1 with
      | none => none
      | some (k, r2) =>
        match r2.dropWhile jsonWs with
        | ':' :: r3 =>
          match jpRun fuel .val r3 with
          | none => none
          | some (v, r4) =>
            match r4.dropWhile jsonWs with
            | ',' :: r5 => jpRun fuel (.objTail (acc ++ [(k, v)])) r5
            | r5 :: r6 =>
              if r5 = Char.ofNat 125 then some (.obj (acc ++ [(k, v)]), r6) else none
            | [] => none
        | _ => none
    | _ => none

/-- JavaScript `JSON.parse`, requiring the whole input to be consumed. -/
def jsonParse (s : String) : Option JsValue :=
  match jpRun (s.length + 1) .val s.toList with
  | some (v, rest) => if rest.dropWhile jsonWs = [] then some v else none
  | none => none

/-- Strip the first and the last character (JavaScript `slice(1, -1)`). -/
def sliceInner (s : String) : String := String.mk ((s.toList.drop 1).dropLast)

/-- `coerceValue` from `topicLoader.ts`: JSON aggregates for values starting
with a bracket or brace (falling back to the raw string on parse failure),
quote stripping for wrapped values, the `true`/`false` literals, and
otherwise a number whenever `Number(value)` is not NaN (note: the source
checks `Number.isNaN`, not `Number.isFinite`). -/
def coerceValue (value : String) : JsValue :=
  if strStarts value ("[") = true ∨ strStarts value ("\x7b") = true then
    match jsonParse value with
    | some v => v
    | none => .str value
  else if (strStarts value dquote = true ∧ strEnds value dquote = true) ∨
      (strStarts value squote = true ∧ strEnds value squote = true) then
    .str (sliceInner value)
  else if value = "true" ∨ value = "false" then
    .bool (value == "true")
  else
    match jsStringToNumber value with
    | .nan => .str value
    | n => .num n

/-- One step of the block-scalar collector of `parseFrontmatter`: consume
subsequent lines while they are blank (kept as empty lines) or indented
(kept with the indent stripped); stop at the first unindented line. -/
def collectBlock : List String → List String × List String
  | [] => ([], [])
  | l :: ls =>
    if jsTrimEnd l = "" then
      let p := collectBlock ls
      ("" :: p.1, p.2)
    else
      let ws := l.toList.takeWhile isJsWs
      if ws = [] then ([], l :: ls)
      else
        let p := collectBlock ls
        (String.mk (l.toList.drop ws.length) :: p.1, p.2)

/-- `replace(/\s+/g, ' ')`: collapse every whitespace run to one space.  The
flag records whether the previous character was whitespace. -/
def collapseWsAux : Bool → List Char → List Char
  | _, [] => []
  | inWs, c :: cs =>
    if isJsWs c then
      if inWs then collapseWsAux true cs
      else ' ' :: collapseWsAux true cs
    else c :: collapseWsAux false cs

/-- Index of the first colon in a character list (JavaScript `indexOf(':')`). -/
def idxOfColon : List Char → Option ℕ
  | [] => none
  | c :: cs => if c = ':' then some 0 else (idxOfColon cs).map (fun i => i + 1)

/-- The body of `parseFrontmatter`'s `while` loop.  The fuel decreases once
per iteration and every iteration consumes at least the key line, so
`lines.length + 1` units can never run out. -/
def parseFMLoop (path : String) : ℕ → List String → Except String (List (String × JsValue))
  | 0, _ => .error ("frontmatter scan fuel exhausted")
  | _ + 1, [] => .ok []
  | fuel + 1, rawLine :: rest =>
    if jsTrim rawLine = "" then parseFMLoop path fuel rest
    else
      match idxOfColon rawLine.toList with
      | none => .error ("Invalid frontmatter entry in " ++ path ++ ": \"" ++ rawLine ++ "\"")
      | some sep =>
        let key := jsTrim (String.mk (rawLine.toList.take sep))
        if key = "" then
          .error ("Invalid frontmatter key in " ++ path ++ ": \"" ++ rawLine ++ "\"")
        else
          let valuePortion := jsTrim (String.mk (rawLine.toList.drop (sep + 1)))
          if valuePortion = "|" ∨ valuePortion = ">" then
            let p := collectBlock rest
            let blockValue :=
              if valuePortion = ">" then
                jsTrim (String.mk (collapseWsAux false (joinWith (" ") p.1).toList))
              else joinWith ("\n") p.1
            match parseFMLoop path fuel p.2 with
            | .ok tail => .ok ((key, .str blockValue) :: tail)
            | .error e => .error e
          else
            match parseFMLoop path fuel rest with
            | .ok tail => .ok ((key, coerceValue valuePortion) :: tail)
            | .error e => .error e

/-- `parseFrontmatter` from `topicLoader.ts`: reduce the frontmatter block
into key/value pairs, coercing scalar values and consuming `|`/`>` block
scalars. -/
def parseFrontmatter (lines : List String) (path : String) :
    Except String (List (String × JsValue)) :=
  parseFMLoop path (lines.length + 1) lines

/-- Lookup in the assignment list produced by `parseFrontmatter`; later
assignments overwrite earlier ones, as on a JavaScript object. -/
def fmGet (data : List (String × JsValue)) (k : String) : Option JsValue :=
  data.foldl (fun acc p => if p.1 = k then some p.2 else acc) none

/-- A 3-component vector of JavaScript numbers (`THREE.Vector3` contents,
`Vector3Tuple` contents). -/
structure Vec3J where
  x : JsNumber
  y : JsNumber
  z : JsNumber
deriving DecidableEq

/-- A value that passes `Array.isArray`, has `length === 3` and only
`typeof number` entries, read as a vector. -/
def asVec3 : JsValue → Option Vec3J
  | .arr [.num a, .num b, .num c] => some ⟨a, b, c⟩
  | _ => none

/-- Typed frontmatter (the `TopicFrontmatter` interface).  `order` is typed
`number | undefined` as in the source interface; an `order` value of another
runtime type is outside this typed model (the source never validates it and
its comparator behaviour on such values is unspecified). -/
structure TopicFrontmatter where
  id : String
  title : String
  position : Vec3J
  lookAt : Option Vec3J
  pagePosition : Option Vec3J
  anchorId : Option String
  hud : Option String
  order : Option JsNumber
deriving DecidableEq

/-- `validateFrontmatter` from `topicLoader.ts`, together with the cast to
the typed interface.  The `lookAt`/`pagePosition` guards are JavaScript
truthiness tests, so a present-but-falsy value skips validation and is
treated as absent (exactly as the later truthiness/nullish reads do). -/
def validateFrontmatter (data : List (String × JsValue)) (path : String) :
    Except String TopicFrontmatter := do
  let id ← match fmGet data ("id") with
    | some (.str s) => Except.ok s
    | _ => Except.error ("Topic file " ++ path ++ " is missing a string id")
  let title ← match fmGet data ("title") with
    | some (.str s) => Except.ok s
    | _ => Except.error ("Topic file " ++ path ++ " is missing a string title")
  let position ← match (fmGet data ("position")).bind asVec3 with
    | some t => Except.ok t
    | none => Except.error ("Topic file " ++ path ++ " must supply numeric position [x, y, z]")
  let lookAt ← match fmGet data ("lookAt") with
    | some v =>
      if truthy v then
        match asVec3 v with
        | some t => Except.ok (some t)
        | none => Except.error ("Topic file " ++ path ++ " has invalid lookAt; expected numeric [x, y, z]")
      else Except.ok none
    | none => Except.ok none
  let pagePosition ← match fmGet data ("pagePosition") with
    | some v =>
      if truthy v then
        match asVec3 v with
        | some t => Except.ok (some t)
        | none => Except.error ("Topic file " ++ path ++ " has invalid pagePosition; expected numeric [x, y, z]")
      else Except.ok none
    | none => Except.ok none
  let anchorId ← match fmGet data ("anchorId") with
    | none => Except.ok none
    | some (.str s) => Except.ok (some s)
    | some _ => Except.error ("Topic file " ++ path ++ " has invalid anchorId; expected string identifier")
  let hud ← match fmGet data ("hud") with
    | none => Except.ok none
    | some (.str s) => Except.ok (some s)
    | some _ => Except.error ("Topic file " ++ path ++ " has invalid hud; expected multiline string")
  let order : Option JsNumber :=
    match fmGet data ("order") with
    | some (.num n) => some n
    | _ => none
  Except.ok { id, title, position, lookAt, pagePosition, anchorId, hud, order }

/-- Split at `\r\n` or `\n` (the `split(/\r?\n/)` of `parseTopicFile`). -/
def splitLinesAux : List Char → List Char → List (List Char)
  | [], acc => [acc.reverse]
  | '\r' :: '\n' :: cs, acc => acc.reverse :: splitLinesAux cs []
  | '\n' :: cs, acc => acc.reverse :: splitLinesAux cs []
  | c :: cs, acc => splitLinesAux cs (c :: acc)

/-- `split(/\r?\n/)` on a string. -/
def splitJsLines (s : String) : List String := (splitLinesAux s.toList []).map String.mk

/-- `indexOf(target, start)` on a list of lines: the absolute index of the
first hit at or after `start`. -/
def idxOfFrom (target : String) : List String → ℕ → Option ℕ
  | [], _ => none
  | l :: ls, 0 => if l = target then some 0 else (idxOfFrom target ls 0).map (fun i => i + 1)
  | _ :: ls, s + 1 => (idxOfFrom target ls s).map (fun i => i + 1)

/-- Parsed representation of a topic file: typed metadata plus trimmed body. -/
structure ParsedTopic where
  frontmatter : TopicFrontmatter
  content : String
deriving DecidableEq

/-- `parseTopicFile` from `topicLoader.ts`: check the opening delimiter,
find the closing delimiter from line 1 on, parse and validate the
frontmatter block, and keep the joined, trimmed body. -/
def parseTopicFile (path : String) (raw : String) : Except String ParsedTopic :=
  let trimmed := jsTrimStart raw
  if strStarts trimmed ("---") = false then
    .error ("Topic file " ++ path ++ " is missing frontmatter delimiter")
  else
    let lines := splitJsLines trimmed
    match idxOfFrom ("---") lines 1 with
    | none => .error ("Topic file " ++ path ++ " is missing closing frontmatter delimiter")
    | some closingIndex =>
      let frontmatterLines := (lines.take closingIndex).drop 1
      let contentLines := lines.drop (closingIndex + 1)
      match parseFrontmatter frontmatterLines path with
      | .error e => .error e
      | .ok data =>
        match validateFrontmatter data path with
        | .error e => .error e
        | .ok fm => .ok { frontmatter := fm, content := jsTrim (joinWith ("\n") contentLines) }

/-- An ASCII letter (the `[a-z]` of the tag regex with the `i` flag). -/
def isAsciiLetter (c : Char) : Bool :=
  (97 ≤ c.toNat && c.toNat ≤ 122) || (65 ≤ c.toNat && c.toNat ≤ 90)

/-- Scan for the regex `/<[a-z][^>]*>/i`: a `<`, an ASCII letter, then any
characters up to a later `>`. -/
def ctAux : List Char → Bool
  | [] => false
  | '<' :: rest =>
    (match rest with
      | c :: cs => isAsciiLetter c && cs.contains '>'
      | [] => false) || ctAux rest
  | _ :: rest => ctAux rest

/-- `/<[a-z][^>]*>/i.test(s)`. -/
def containsTag (s : String) : Bool := ctAux s.toList

/-- Split at maximal runs of two or more newlines (`split(/\n{2,}/)`).  The
flag records that we are inside a separator run and swallow its newlines. -/
def splitNNAux : Bool → List Char → List Char → List (List Char)
  | _, [], acc => [acc.reverse]
  | true, '\n' :: cs, acc => splitNNAux true cs acc
  | true, c :: cs, acc => splitNNAux false cs (c :: acc)
  | false, '\n' :: '\n' :: cs, acc => acc.reverse :: splitNNAux true cs []
  | false, c :: cs, acc => splitNNAux false cs (c :: acc)

/-- Split at every newline (`split(/\n/)`). -/
def splitNLAux : List Char → List Char → List (List Char)
  | [], acc => [acc.reverse]
  | '\n' :: cs, acc => acc.reverse :: splitNLAux cs []
  | c :: cs, acc => splitNLAux cs (c :: acc)

/-- `replace(/\n/g, '<br>')`. -/
def replaceNLBr : List Char → String
  | [] => ""
  | '\n' :: cs => "<br>" ++ replaceNLBr cs
  | c :: cs => String.singleton c ++ replaceNLBr cs

/-- `formatHudMarkup` from `topicLoader.ts`: pass markup through when it
already contains an element-like tag, otherwise build `<p>` paragraphs from
double-newline blocks with `<br>` soft breaks. -/
def formatHudMarkup (value : String) : String :=
  let trimmed := jsTrim value
  if trimmed = "" then ""
  else if containsTag trimmed then trimmed
  else
    let blocks := (splitNNAux false trimmed.toList []).map String.mk
    let paragraphs :=
      (blocks.map (fun block =>
        joinWith ("<br>")
          ((((splitNLAux block.toList []).map String.mk).map jsTrim).filter
            (fun line => line ≠ "")))).filter (fun block => block ≠ "")
    if paragraphs = [] then "<p>" ++ replaceNLBr trimmed.toList ++ "</p>"
    else joinWith ("") (paragraphs.map (fun block => "<p>" ++ block ++ "</p>"))

/-- Code-point lexicographic string comparison (`a ≤ b`), the model of the
case-sensitive `localeCompare` tie-break (on the default code-point collation
they agree; the claims only use ASCII titles). -/
def charListLe : List Char → List Char → Bool
  | [], _ => true
  | _ :: _, [] => false
  | a :: as, b :: bs =>
    if a.toNat < b.toNat then true
    else if b.toNat < a.toNat then false
    else charListLe as bs

/-- `localeCompare(b) <= 0` model on strings. -/
def strLe (a b : String) : Bool := charListLe a.toList b.toList

/-- Sort key of a parsed topic: `frontmatter.order ?? Number.POSITIVE_INFINITY`
mapped into `WithBot (WithTop ℚ)` (so a missing order is `⊤` and sorts last,
exactly like `+∞` in the JavaScript comparator).  A NaN order is unreachable:
neither the scalar coercion nor JSON parsing ever produces NaN. -/
def orderKey (fm : TopicFrontmatter) : WithBot (WithTop ℚ) :=
  match fm.order with
  | none => ⊤
  | some (.finite q) => (((q : ℚ) : WithTop ℚ) : WithBot (WithTop ℚ))
  | some .posInf => ⊤
  | some .negInf => ⊥
  | some .nan => ⊤

/-- The comparator of `loadTopics`' sort, as a relation: strictly smaller
`order ?? +∞` first, ties broken by the title comparison. -/
def topicLE (a b : ParsedTopic) : Prop :=
  orderKey a.frontmatter < orderKey b.frontmatter ∨
    (orderKey a.frontmatter = orderKey b.frontmatter ∧
      strLe a.frontmatter.title b.frontmatter.title = true)

instance : DecidableRel topicLE := fun a b => by
  unfold topicLE
  infer_instance

/-- The sort of `loadTopics`: a stable sort by the comparator above
(`Array.prototype.sort` is stable, and a stable sort by a total preorder is
unique, so insertion sort computes exactly the source's result). -/
def sortTopics (l : List ParsedTopic) : List ParsedTopic := List.insertionSort topicLE l

/-- A `Topic` as built by `loadTopics` for the router: the `onEnter` closure
always exists and calls `hud.set(hudMarkup ?? '')`, so it is represented by
the markup string it writes. -/
structure LoadedTopic where
  id : String
  title : String
  position : Vec3J
  lookAt : Option Vec3J
  onEnterMarkup : String
deriving DecidableEq

/-- A `RenderPagePayload` as built by `loadTopics` for the panel renderer. -/
structure RenderPagePayload where
  id : String
  title : String
  content : String
  fallbackTarget : Vec3J
  anchorId : Option String
deriving DecidableEq

/-- The `topics`/`pages` bundle returned by `loadTopics`. -/
structure LoadedTopicBundle where
  topics : List LoadedTopic
  pages : List RenderPagePayload
deriving DecidableEq

/-- `frontmatter.hud ? formatHudMarkup(frontmatter.hud) : undefined` (note
the truthiness test: an empty `hud` string is falsy). -/
def hudMarkupOf (fm : TopicFrontmatter) : Option String :=
  match fm.hud with
  | some h => if h = "" then none else some (formatHudMarkup h)
  | none => none

/-- The `topics.push` record of `loadTopics` for one parsed document. -/
def mkTopic (pt : ParsedTopic) : LoadedTopic :=
  { id := pt.frontmatter.id,
    title := pt.frontmatter.title,
    position := pt.frontmatter.position,
    lookAt := pt.frontmatter.lookAt,
    onEnterMarkup := (hudMarkupOf pt.frontmatter).getD ("") }

/-- The `pages.push` record of `loadTopics` for one parsed document, with
`fallbackTarget = pagePosition ?? lookAt ?? position`. -/
def mkPage (pt : ParsedTopic) : RenderPagePayload :=
  { id := pt.frontmatter.id,
    title := pt.frontmatter.title,
    content := pt.content,
    fallbackTarget :=
      (match pt.frontmatter.pagePosition with
        | some t => t
        | none =>
          match pt.frontmatter.lookAt with
          | some t => t
          | none => pt.frontmatter.position),
    anchorId := pt.frontmatter.anchorId }

/-- `Object.entries(topicModules).map(parseTopicFile)`: the first thrown
parse error aborts the whole batch. -/
def parseAllTopics : List (String × String) → Except String (List ParsedTopic)
  | [] => .ok []
  | d :: ds =>
    match parseTopicFile d.1 d.2 with
    | .error e => .error e
    | .ok pt =>
      match parseAllTopics ds with
      | .error e => .error e
      | .ok pts => .ok (pt :: pts)

/-- `loadTopics` from `topicLoader.ts` on a batch of raw documents: parse
every file, sort, and build one `Topic` and one `RenderPagePayload` per
document (the page is pushed unconditionally). -/
def loadTopics (docs : List (String × String)) : Except String LoadedTopicBundle :=
  match parseAllTopics docs with
  | .error e => .error e
  | .ok parsed =>
    let sorted := sortTopics parsed
    .ok { topics := sorted.map mkTopic, pages := sorted.map mkPage }

/-- A managed panel of the world page manager.  The raster and geometry
resources are abstracted away (no claim inspects them); the mesh state kept
is its position, opacity, and uniform scale.  Orientation (the per-frame
`quaternion.copy(camera.quaternion)`) is likewise not modelled. -/
structure ManagedPanel where
  id : String
  fallbackTarget : Vec3J
  anchorId : Option String
  isActive : Bool
  meshPos : Vec3J
  opacity : ℚ
  scale : ℚ
deriving DecidableEq

/-- Does the registry contain a panel with this id (`panels.get(id)`)? -/
def registryHas (reg : List ManagedPanel) (id : String) : Bool :=
  reg.any (fun p => p.id == id)

/-- `registerPage` from the world page manager: a no-op when the content
trims to empty; otherwise replace the panel stored under the id (keeping its
activity state) or append a new inactive panel.  The registry list is the
insertion-ordered `Map`. -/
def registerPage (reg : List ManagedPanel) (p : RenderPagePayload) : List ManagedPanel :=
  let html := jsTrim p.content
  if html = "" then reg
  else if registryHas reg p.id then
    reg.map (fun mp =>
      if mp.id = p.id then
        { mp with fallbackTarget := p.fallbackTarget, anchorId := p.anchorId }
      else mp)
  else
    let fresh : ManagedPanel :=
      { id := p.id, fallbackTarget := p.fallbackTarget, anchorId := p.anchorId,
        isActive := false, meshPos := ⟨.finite 0, .finite 0, .finite 0⟩,
        opacity := 1, scale := 1 }
    reg ++ [fresh]

/-- `setActivePage` from the world page manager:
`panel.isActive = topicId !== null && panel.id === topicId` for every panel. -/
def setActivePage (reg : List ManagedPanel) (topicId : Option String) : List ManagedPanel :=
  reg.map (fun p =>
    { p with
      isActive :=
        match topicId with
        | none => false
        | some t => p.id == t })

/-- `THREE.MathUtils.lerp`. -/
def qlerp (x y t : ℚ) : ℚ := x + (y - x) * t

/-- `update` from the world page manager: resolve each panel's placement
(anchor if the id is truthy and the resolver succeeds, else the fallback
target) and ease opacity and scale toward the active/inactive targets with
blend factor `0.25`; activity itself is never changed. -/
def updatePanels (resolveAnchor : String → Option Vec3J) (reg : List ManagedPanel) :
    List ManagedPanel :=
  reg.map (fun p =>
    let target : Vec3J :=
      match p.anchorId with
      | some a =>
        if a = "" then p.fallbackTarget
        else
          match resolveAnchor a with
          | some v => v
          | none => p.fallbackTarget
      | none => p.fallbackTarget
    let targetOpacity : ℚ := if p.isActive then 1 else 35 / 100
    let targetScale : ℚ := if p.isActive then 1 else 85 / 100
    { p with
      meshPos := target,
      opacity := qlerp p.opacity targetOpacity (25 / 100),
      scale := qlerp (if p.scale = 0 then 1 else p.scale) targetScale (25 / 100) })

/-- One public call on the world page manager (`dispose` clears everything
and is irrelevant to the activity invariant, so it is not listed). -/
inductive PanelOp where
  | register (p : RenderPagePayload)
  | setActive (topicId : Option String)
  | update (resolveAnchor : String → Option Vec3J)

/-- Apply one public call to the registry. -/
def runPanelOp (reg : List ManagedPanel) : PanelOp → List ManagedPanel
  | .register p => registerPage reg p
  | .setActive t => setActivePage reg t
  | .update r => updatePanels r reg

/-- Run a call sequence against the initially empty registry. -/
def runPanelOps (ops : List PanelOp) : List ManagedPanel :=
  ops.foldl runPanelOp []

/-- Number of active panels in a registry. -/
def activeCount (reg : List ManagedPanel) : ℕ :=
  (reg.filter (fun p => p.isActive)).length

/-- Camera-side vector: exact rationals (camera interpolation carries no
rounding in this model; the exactness claim is about the algorithm). -/
structure Vec3 where
  x : ℚ
  y : ℚ
  z : ℚ
deriving DecidableEq

/-- `THREE.Vector3.lerpVectors`: componentwise `a + (b − a) * t`. -/
def lerpVectors (a b : Vec3) (t : ℚ) : Vec3 :=
  ⟨a.x + (b.x - a.x) * t, a.y + (b.y - a.y) * t, a.z + (b.z - a.z) * t⟩

/-- Componentwise vector addition (`Vector3.add`). -/
def addVec (a b : Vec3) : Vec3 := ⟨a.x + b.x, a.y + b.y, a.z + b.z⟩

/-- A topic as the router sees it; the optional `onEnter` callback is
abstracted to a presence flag, and its invocations are reported in an event
list by `goTo`. -/
structure RTopic where
  id : String
  title : String
  position : Vec3
  lookAt : Option Vec3
  hasOnEnter : Bool
deriving DecidableEq

/-- The mutable state of a `TopicRouter`: topic list, active index, camera
pose (`camForward` is the unit forward vector `(0,0,-1)` rotated by the
camera quaternion, so `camForward + camPos` is the `currentLook` point the
source computes), interpolation endpoints, progress, phase flag and
duration. -/
structure RouterState where
  topics : List RTopic
  index : ℕ
  camPos : Vec3
  camForward : Vec3
  lerpT : ℚ
  fromPos : Vec3
  toPos : Vec3
  fromLook : Vec3
  toLook : Vec3
  isMoving : Bool
  durationMs : ℚ
deriving DecidableEq

/-- `TopicRouter.goTo(i)`: no-op outside `[0, len)`; otherwise capture the
live pose as the new `from*`, aim at the target topic, reset `lerpT`, enter
the moving phase, and fire the target's `onEnter` if it has one.  The second
component lists the indices whose `onEnter` ran during the call. -/
def goTo (s : RouterState) (i : ℤ) : RouterState × List ℕ :=
  if i < 0 ∨ (s.topics.length : ℤ) ≤ i then (s, [])
  else
    match s.topics.get? i.toNat with
    | none => (s, [])
    | some t =>
      ({ s with
          index := i.toNat,
          fromPos := s.camPos,
          toPos := t.position,
          fromLook := addVec s.camForward s.camPos,
          toLook := t.lookAt.getD ⟨0, 0, -1⟩,
          lerpT := 0,
          isMoving := true },
        if t.hasOnEnter then [i.toNat] else [])

/-- The index `next()` passes to `goTo`: `min(index + 1, len − 1)`. -/
def nextIndex (s : RouterState) : ℤ := min ((s.index : ℤ) + 1) ((s.topics.length : ℤ) - 1)

/-- The index `prev()` passes to `goTo`: `max(index − 1, 0)`. -/
def prevIndex (s : RouterState) : ℤ := max ((s.index : ℤ) - 1) 0

/-- `TopicRouter.next()`. -/
def next (s : RouterState) : RouterState × List ℕ := goTo s (nextIndex s)

/-- `TopicRouter.prev()`. -/
def prev (s : RouterState) : RouterState × List ℕ := goTo s (prevIndex s)

/-- `TopicRouter.update(deltaMs)`: no-op when idle; otherwise advance
`lerpT`, clamp to 1, smoothstep-ease, interpolate position and look target,
re-orient the camera (through the abstract `lookAtForward`, standing for the
irrational `lookAt` renormalisation — no claim inspects orientation), and
leave the moving phase once the clamped progress reaches 1. -/
def update (lookAtForward : Vec3 → Vec3 → Vec3) (s : RouterState) (deltaMs : ℚ) : RouterState :=
  if s.isMoving = false then s
  else
    let lerpT := s.lerpT + deltaMs / s.durationMs
    let t := min 1 lerpT
    let ease := t * t * (3 - 2 * t)
    let pos := lerpVectors s.fromPos s.toPos ease
    let target := lerpVectors s.fromLook s.toLook ease
    { s with
      lerpT := lerpT,
      camPos := pos,
      camForward := lookAtForward pos target,
      isMoving := if 1 ≤ t then false else s.isMoving }

/-- Fold `update` over a list of frame deltas. -/
def applyUpdates (lookAtForward : Vec3 → Vec3 → Vec3) : RouterState → List ℚ → RouterState
  | s, [] => s
  | s, d :: ds => applyUpdates lookAtForward (update lookAtForward s d) ds

/-- `split(/\s+/)`: tokens between maximal whitespace runs, with the empty
leading/trailing tokens JavaScript produces for padded input.  The flag
records that we are inside a separator run. -/
def splitWsAux : Bool → List Char → List Char → List (List Char)
  | _, [], acc => [acc.reverse]
  | true, c :: cs, acc =>
    if isJsWs c then splitWsAux true cs acc
    else splitWsAux false cs (c :: acc)
  | false, c :: cs, acc =>
    if isJsWs c then acc.reverse :: splitWsAux true cs []
    else splitWsAux false cs (c :: acc)

/-- `text.split(/\s+/)` as a list of strings. -/
def splitWs (text : String) : List String := (splitWsAux false text.toList []).map String.mk

/-- Font and line metrics of a classified block (`blockToSpec` output). -/
structure BlockSpec where
  text : String
  font : String
  lineHeight : ℚ
deriving DecidableEq

/-- One laid-out line (`LinesLayout` entry). -/
structure TextLine where
  text : String
  font : String
  lineHeight : ℚ
deriving DecidableEq

/-- The `words.forEach` accumulation of `wrapText` together with the final
`current` push: greedy word filling, breaking before a word only when the
extended candidate overflows and the current line is non-empty.  `measure`
stands for `ctx.measureText(·).width` under `spec.font`. -/
def wrapGo (measure : String → ℚ) (maxWidth : ℚ) (spec : BlockSpec) :
    List String → String → List TextLine
  | [], current =>
    if 0 < current.length then
      [{ text := current, font := spec.font, lineHeight := spec.lineHeight }]
    else []
  | w :: ws, current =>
    let nextStr := if current.length = 0 then w else current ++ (" ") ++ w
    if maxWidth < measure nextStr ∧ 0 < current.length then
      { text := current, font := spec.font, lineHeight := spec.lineHeight } ::
        wrapGo measure maxWidth spec ws w
    else wrapGo measure maxWidth spec ws nextStr

/-- `wrapText` from the world page manager: split into words, fill lines
greedily, and fall back to a single empty line when nothing was produced. -/
def wrapText (measure : String → ℚ) (text : String) (spec : BlockSpec) (maxWidth : ℚ) :
    List TextLine :=
  let lines := wrapGo measure maxWidth spec (splitWs text) ("")
  if lines.length = 0 then
    [{ text := "", font := spec.font, lineHeight := spec.lineHeight }]
  else lines

/-- The string the `current` accumulator of `wrapText` holds after consuming
the word list (the same `next = current ? current + ' ' + word : word`
builder). -/
def joinFrom : String → List String → String
  | acc, [] => acc
  | acc, w :: ws => joinFrom (if acc.length = 0 then w else acc ++ (" ") ++ w) ws

/-! Concrete inputs used by counterexamples and witnesses. -/

/-- A raw document whose id collides with `docDupB`. -/
def docDupA : String × String :=
  ("topics/a.html", "---\nid: dup\ntitle: A\nposition: [1,2,3]\n---\nBody A")

/-- A raw document whose id collides with `docDupA`. -/
def docDupB : String × String :=
  ("topics/b.html", "---\nid: dup\ntitle: B\nposition: [4,5,6]\n---\nBody B")

/-- A valid raw document whose body is empty. -/
def docEmptyBody : String × String :=
  ("topics/solo.html", "---\nid: solo\ntitle: Solo\nposition: [1,2,3]\n---\n")

/-- A valid raw document with a non-empty body. -/
def docFullBody : String × String :=
  ("topics/full.html", "---\nid: full\ntitle: Full\nposition: [1,2,3]\n---\nHello world")

/-- Frontmatter with `order: 2`, title `B`. -/
def fmOrder2B : TopicFrontmatter :=
  { id := "b2", title := "B", position := ⟨.finite 0, .finite 0, .finite 0⟩,
    lookAt := none, pagePosition := none, anchorId := none, hud := none,
    order := some (.finite 2) }

/-- Frontmatter with no `order`, title `A`. -/
def fmNoOrderA : TopicFrontmatter :=
  { id := "a", title := "A", position := ⟨.finite 0, .finite 0, .finite 0⟩,
    lookAt := none, pagePosition := none, anchorId := none, hud := none,
    order := none }

/-- Frontmatter with `order: 1`, title `C`. -/
def fmOrder1C : TopicFrontmatter :=
  { id := "c1", title := "C", position := ⟨.finite 0, .finite 0, .finite 0⟩,
    lookAt := none, pagePosition := none, anchorId := none, hud := none,
    order := some (.finite 1) }

/-- Parsed topic for `fmOrder2B`. -/
def ptOrder2B : ParsedTopic := { frontmatter := fmOrder2B, content := "" }

/-- Parsed topic for `fmNoOrderA`. -/
def ptNoOrderA : ParsedTopic := { frontmatter := fmNoOrderA, content := "" }

/-- Parsed topic for `fmOrder1C`. -/
def ptOrder1C : ParsedTopic := { frontmatter := fmOrder1C, content := "" }

/-- A topic for the router with an `onEnter` callback. -/
def sampleTopic : RTopic :=
  { id := "intro", title := "Intro", position := ⟨1, 2, 3⟩, lookAt := none, hasOnEnter := true }

/-- A one-topic router state sitting idle away from the topic. -/
def sampleRouter : RouterState :=
  { topics := [sampleTopic], index := 0, camPos := ⟨5, 5, 5⟩, camForward := ⟨0, 0, -1⟩,
    lerpT := 0, fromPos := ⟨0, 0, 0⟩, toPos := ⟨0, 0, 0⟩, fromLook := ⟨0, 0, 0⟩,
    toLook := ⟨0, 0, 0⟩, isMoving := false, durationMs := 1200 }

/-- A concrete stand-in for the abstract camera re-orientation. -/
def idForward : Vec3 → Vec3 → Vec3 := fun _ target => target

/-- A payload with non-empty content. -/
def pageHello : RenderPagePayload :=
  { id := "full", title := "Full", content := "Hello",
    fallbackTarget := ⟨.finite 1, .finite 2, .finite 3⟩, anchorId := none }

/-- A payload whose content trims to empty. -/
def pageBlank : RenderPagePayload :=
  { id := "blank", title := "Blank", content := "  ",
    fallbackTarget := ⟨.finite 1, .finite 2, .finite 3⟩, anchorId := none }

/-- The bundle `loadTopics` returns for the colliding pair
`[docDupA, docDupB]`: both documents are loaded. -/
def dupBundle : LoadedTopicBundle :=
  { topics :=
      [{ id := "dup", title := "A", position := ⟨.finite 1, .finite 2, .finite 3⟩,
         lookAt := none, onEnterMarkup := "" },
       { id := "dup", title := "B", position := ⟨.finite 4, .finite 5, .finite 6⟩,
         lookAt := none, onEnterMarkup := "" }],
    pages :=
      [{ id := "dup", title := "A", content := "Body A",
         fallbackTarget := ⟨.finite 1, .finite 2, .finite 3⟩, anchorId := none },
       { id := "dup", title := "B", content := "Body B",
         fallbackTarget := ⟨.finite 4, .finite 5, .finite 6⟩, anchorId := none }] }

/-- The bundle `loadTopics` returns for `[docFullBody]`. -/
def fullBundle : LoadedTopicBundle :=
  { topics :=
      [{ id := "full", title := "Full", position := ⟨.finite 1, .finite 2, .finite 3⟩,
         lookAt := none, onEnterMarkup := "" }],
    pages :=
      [{ id := "full", title := "Full", content := "Hello world",
         fallbackTarget := ⟨.finite 1, .finite 2, .finite 3⟩, anchorId := none }] }

/-- A concrete monotone text measure: the number of characters. -/
def strMeasure (s : String) : ℚ := (s.length : ℚ)

/-- A concrete block spec (the body font of `blockToSpec`). -/
def wSpec : BlockSpec :=
  { text := "", font := "400 18px Inter, system-ui", lineHeight := 28 }

/-! Theorems.  Each claim from the specification is settled by exactly one
theorem below (with a witness where the theorem carries hypotheses, and a
concrete counterexample where the claim needed correcting). -/

/-- `coerceValue` of the empty string is the number `0`. -/
theorem coerceValue_empty : coerceValue ("") = .num (.finite 0) := rfl

/-- Claim C6, counterexample: the value `Infinity` is not bracketed, not
quoted and not a boolean literal; its numeric parse yields the non-finite
number `+∞`, and `coerceValue` returns that number rather than keeping the
string, because the source only checks `Number.isNaN`, not
`Number.isFinite`. -/
theorem c6_counterexample : coerceValue ("Infinity") = .num .posInf := rfl

/-- Claim C6 (amended): for a scalar value that is not bracketed, not quoted
and not a `true`/`false` literal, the coercion returns a number exactly when
the numeric parse does not yield NaN — non-finite parses such as `Infinity`
are returned as numbers, not kept as strings. -/
theorem c6_number_iff_parse_not_nan (v : String)
    (hb : ¬ (strStarts v ("[") = true ∨ strStarts v ("\x7b") = true))
    (hq : ¬ ((strStarts v dquote = true ∧ strEnds v dquote = true) ∨
      (strStarts v squote = true ∧ strEnds v squote = true)))
    (ht : ¬ (v = "true" ∨ v = "false")) :
    (jsStringToNumber v = .nan ∧ coerceValue v = .str v) ∨
      (jsStringToNumber v ≠ .nan ∧ coerceValue v = .num (jsStringToNumber v)) := by
  unfold coerceValue
  rw [if_neg hb, if_neg hq, if_neg ht]
  cases h : jsStringToNumber v
  · exact Or.inr (by simp [h])
  · exact Or.inr (by simp [h])
  · exact Or.inr (by simp [h])
  · exact Or.inl (by simp [h])

/-- Claim C6, witness: the theorem applied to the concrete value
`Infinity`. -/
theorem c6_number_iff_parse_not_nan_witness :
    (jsStringToNumber ("Infinity") = .nan ∧ coerceValue ("Infinity") = .str ("Infinity")) ∨
      (jsStringToNumber ("Infinity") ≠ .nan ∧
        coerceValue ("Infinity") = .num (jsStringToNumber ("Infinity"))) :=
  c6_number_iff_parse_not_nan ("Infinity") (by decide) (by decide) (by decide)

/-- Claim C10: a frontmatter line whose value portion trims to the empty
string (for instance a bare `order:` line) is assigned the number `0`, not
the empty string, because `Number('')` is `0` and `0` is not NaN. -/
theorem c10_empty_value_coerces_to_zero (l path : String) (i : ℕ)
    (hc : idxOfColon l.toList = some i)
    (hnb : ¬ jsTrim l = "")
    (hk : ¬ jsTrim (String.mk (l.toList.take i)) = "")
    (hv : jsTrim (String.mk (l.toList.drop (i + 1))) = "") :
    parseFrontmatter [l] path =
      .ok [(jsTrim (String.mk (l.toList.take i)), .num (.finite 0))] := by
  show parseFMLoop path 2 [l] = _
  unfold parseFMLoop
  rw [if_neg hnb, hc]
  simp only
  rw [if_neg hk, hv]
  rw [if_neg (by decide : ¬ (("" : String) = "|" ∨ ("" : String) = ">"))]
  rfl

/-- Claim C10, witness: the theorem applied to the concrete line `order:`. -/
theorem c10_empty_value_coerces_to_zero_witness :
    parseFrontmatter ["order:"] ("topics/a.html") =
      .ok [("order", .num (.finite 0))] :=
  c10_empty_value_coerces_to_zero ("order:") ("topics/a.html") 5
    (by decide) (by decide) (by decide) (by decide)

/-- Claim C7: `goTo(i)` with `i` outside `[0, len)` returns the state
entirely unchanged (so index, phase, `t` and all four interpolation
endpoints are untouched) and fires no `onEnter`; and for a non-empty topic
list with a valid active index, the indices `next()` and `prev()` hand to
`goTo` are clamped into `[0, len)`. -/
theorem c7_out_of_range_goTo_ignored :
    (∀ (s : RouterState) (i : ℤ), i < 0 ∨ (s.topics.length : ℤ) ≤ i → goTo s i = (s, [])) ∧
      (∀ s : RouterState, s.topics ≠ [] → s.index < s.topics.length →
        (0 ≤ nextIndex s ∧ nextIndex s < (s.topics.length : ℤ)) ∧
          (0 ≤ prevIndex s ∧ prevIndex s < (s.topics.length : ℤ))) := by
  constructor
  · intro s i h
    unfold goTo
    rw [if_pos h]
  · intro s hne hidx
    have hpos : 0 < s.topics.length := List.length_pos.mpr hne
    unfold nextIndex prevIndex
    rw [min_def, max_def]
    constructor
    · constructor
      · split <;> omega
      · split <;> omega
    · constructor
      · split <;> omega
      · split <;> omega

/-- Claim C7, witness: the theorem applied at index `5` of a one-topic
router, and the clamping facts for the same router. -/
theorem c7_out_of_range_goTo_ignored_witness :
    goTo sampleRouter 5 = (sampleRouter, []) ∧
      ((0 ≤ nextIndex sampleRouter ∧ nextIndex sampleRouter < (sampleRouter.topics.length : ℤ)) ∧
        (0 ≤ prevIndex sampleRouter ∧ prevIndex sampleRouter < (sampleRouter.topics.length : ℤ))) :=
  ⟨c7_out_of_range_goTo_ignored.1 sampleRouter 5 (by decide),
    c7_out_of_range_goTo_ignored.2 sampleRouter (by decide) (by decide)⟩

/-- Evaluation of `goTo` at a valid index: the state records the new target
and enters the moving phase with `lerpT = 0`, and `onEnter` fires exactly
when the target has a callback. -/
theorem goTo_valid_eq (s : RouterState) (i : ℕ) (tp : RTopic)
    (hget : s.topics.get? i = some tp) :
    goTo s (i : ℤ) =
      ({ s with
          index := i,
          fromPos := s.camPos,
          toPos := tp.position,
          fromLook := addVec s.camForward s.camPos,
          toLook := tp.lookAt.getD ⟨0, 0, -1⟩,
          lerpT := 0,
          isMoving := true },
        if tp.hasOnEnter then [i] else []) := by
  have hlt : i < s.topics.length := by
    by_contra h
    push_neg at h
    rw [List.get?_eq_none.mpr h] at hget
    exact Option.noConfusion hget
  unfold goTo
  rw [if_neg (by omega)]
  rw [Int.toNat_natCast]
  rw [hget]

/-- Claim C5: calling `goTo(i)` twice in a row at a valid index with no
intervening `update` leaves the router moving with `t = 0`, and each of the
two calls fires the target's `onEnter` once (twice in total), even though
the index does not change. -/
theorem c5_double_goTo_fires_twice (s : RouterState) (i : ℕ) (tp : RTopic)
    (hget : s.topics.get? i = some tp) (hcb : tp.hasOnEnter = true) :
    (goTo ((goTo s (i : ℤ)).1) (i : ℤ)).1.isMoving = true ∧
      (goTo ((goTo s (i : ℤ)).1) (i : ℤ)).1.lerpT = 0 ∧
      (goTo s (i : ℤ)).2 = [i] ∧
      (goTo ((goTo s (i : ℤ)).1) (i : ℤ)).2 = [i] := by
  have h1 := goTo_valid_eq s i tp hget
  have hget2 :
      (({ s with
          index := i,
          fromPos := s.camPos,
          toPos := tp.position,
          fromLook := addVec s.camForward s.camPos,
          toLook := tp.lookAt.getD ⟨0, 0, -1⟩,
          lerpT := 0,
          isMoving := true } : RouterState)).topics.get? i = some tp := hget
  have h2 := goTo_valid_eq _ i tp hget2
  rw [h1]
  simp only [h2, hcb]
  simp

/-- Claim C5, witness: the theorem applied to the one-topic sample router at
index `0`. -/
theorem c5_double_goTo_fires_twice_witness :
    (goTo ((goTo sampleRouter (0 : ℤ)).1) (0 : ℤ)).1.isMoving = true ∧
      (goTo ((goTo sampleRouter (0 : ℤ)).1) (0 : ℤ)).1.lerpT = 0 ∧
      (goTo sampleRouter (0 : ℤ)).2 = [0] ∧
      (goTo ((goTo sampleRouter (0 : ℤ)).1) (0 : ℤ)).2 = [0] :=
  c5_double_goTo_fires_twice sampleRouter 0 sampleTopic (by rfl) (by rfl)

/-- Interpolating all the way (`t = 1`) lands exactly on the target vector:
`a + (b − a) · 1 = b` holds with no residual in exact arithmetic. -/
theorem lerpVectors_one (a b : Vec3) : lerpVectors a b 1 = b := by
  cases b
  simp only [lerpVectors, Vec3.mk.injEq]
  refine ⟨by ring, by ring, by ring⟩

/-- `update` is a no-op when the router is idle. -/
theorem update_not_moving (lf : Vec3 → Vec3 → Vec3) (s : RouterState) (d : ℚ)
    (h : s.isMoving = false) : update lf s d = s := by
  unfold update
  rw [if_pos h]

/-- Any sequence of updates is a no-op when the router is idle. -/
theorem applyUpdates_not_moving (lf : Vec3 → Vec3 → Vec3) (s : RouterState) (ds : List ℚ)
    (h : s.isMoving = false) : applyUpdates lf s ds = s := by
  induction ds with
  | nil => rfl
  | cons d ds ih =>
    show applyUpdates lf (update lf s d) ds = s
    rw [update_not_moving lf s d h]
    exact ih

/-- The update that carries the accumulated progress to `1` or beyond puts
the camera exactly at `toPos` and leaves the moving phase. -/
theorem update_reached (lf : Vec3 → Vec3 → Vec3) (s : RouterState) (d : ℚ)
    (h : s.isMoving = true) (hge : 1 ≤ s.lerpT + d / s.durationMs) :
    (update lf s d).camPos = s.toPos ∧ (update lf s d).isMoving = false := by
  have he : (1 * 1 * (3 - 2 * 1) : ℚ) = 1 := by norm_num
  simp only [update, h, min_eq_left hge, he, lerpVectors_one]
  simp

/-- An update that leaves the accumulated progress below `1` keeps the
router moving and advances `lerpT`, preserving target and duration. -/
theorem update_progress (lf : Vec3 → Vec3 → Vec3) (s : RouterState) (d : ℚ)
    (h : s.isMoving = true) (hlt : s.lerpT + d / s.durationMs < 1) :
    (update lf s d).isMoving = true ∧
      (update lf s d).lerpT = s.lerpT + d / s.durationMs ∧
      (update lf s d).toPos = s.toPos ∧
      (update lf s d).durationMs = s.durationMs := by
  have hmin : ¬ (1 ≤ min 1 (s.lerpT + d / s.durationMs)) := by
    rw [le_min_iff]
    exact fun hh => absurd hh.2 (not_le.mpr hlt)
  simp only [update, h, if_neg hmin]
  simp

/-- Once moving, a non-empty run of non-negative frame deltas whose
accumulated progress reaches `1` parks the camera exactly on `toPos` and
returns the router to the idle phase. -/
theorem updates_reach (lf : Vec3 → Vec3 → Vec3) : ∀ (ds : List ℚ) (s : RouterState),
    s.isMoving = true → 0 < s.durationMs → (∀ d ∈ ds, 0 ≤ d) →
    1 ≤ s.lerpT + ds.sum / s.durationMs → ds ≠ [] →
    (applyUpdates lf s ds).camPos = s.toPos ∧ (applyUpdates lf s ds).isMoving = false := by
  intro ds
  induction ds with
  | nil => exact fun s _ _ _ _ hne => absurd rfl hne
  | cons d ds ih =>
    intro s hmov hdur hnn hsum _
    by_cases hreach : 1 ≤ s.lerpT + d / s.durationMs
    · have hstep := update_reached lf s d hmov hreach
      have hrest := applyUpdates_not_moving lf (update lf s d) ds hstep.2
      show (applyUpdates lf (update lf s d) ds).camPos = s.toPos ∧
        (applyUpdates lf (update lf s d) ds).isMoving = false
      rw [hrest]
      exact hstep
    · push_neg at hreach
      have hstep := update_progress lf s d hmov hreach
      have hne2 : ds ≠ [] := by
        intro hnil
        rw [hnil] at hsum
        simp only [List.sum_cons, List.sum_nil, add_zero] at hsum
        exact absurd hsum (not_le.mpr hreach)
      have hsum2 : 1 ≤ (update lf s d).lerpT + ds.sum / (update lf s d).durationMs := by
        rw [hstep.2.1, hstep.2.2.2]
        rw [List.sum_cons, add_div] at hsum
        linarith
      have := ih (update lf s d) hstep.1 (hstep.2.2.2 ▸ hdur)
        (fun x hx => hnn x (List.mem_cons_of_mem d hx)) hsum2 hne2
      show (applyUpdates lf (update lf s d) ds).camPos = s.toPos ∧
        (applyUpdates lf (update lf s d) ds).isMoving = false
      rw [this.1, this.2]
      exact ⟨hstep.2.2.1, rfl⟩

/-- Claim C3: starting a transition with `goTo` at a valid index and then
running updates with non-negative frame deltas whose accumulated
`deltaMs/durationMs` reaches `t ≥ 1` puts the camera position exactly at the
target waypoint's position (zero residual, in exact arithmetic) and returns
the phase to idle. -/
theorem c3_exact_arrival (lf : Vec3 → Vec3 → Vec3) (s : RouterState) (i : ℕ) (tp : RTopic)
    (ds : List ℚ) (hget : s.topics.get? i = some tp) (hdur : 0 < s.durationMs)
    (hnn : ∀ d ∈ ds, 0 ≤ d) (hsum : 1 ≤ ds.sum / s.durationMs) :
    (applyUpdates lf ((goTo s (i : ℤ)).1) ds).camPos = tp.position ∧
      (applyUpdates lf ((goTo s (i : ℤ)).1) ds).isMoving = false := by
  have hne : ds ≠ [] := by
    intro h0
    rw [h0] at hsum
    simp only [List.sum_nil, zero_div] at hsum
    norm_num at hsum
  have h1 := goTo_valid_eq s i tp hget
  rw [h1]
  exact updates_reach lf ds _ rfl hdur hnn (by simpa using hsum) hne

/-- Claim C3, witness: the sample router sent to its only topic and updated
with two frames of 600 ms against the default 1200 ms duration. -/
theorem c3_exact_arrival_witness :
    (applyUpdates idForward ((goTo sampleRouter (0 : ℤ)).1) [600, 600]).camPos =
        sampleTopic.position ∧
      (applyUpdates idForward ((goTo sampleRouter (0 : ℤ)).1) [600, 600]).isMoving = false :=
  c3_exact_arrival idForward sampleRouter 0 sampleTopic [600, 600] (by rfl)
    (by norm_num [sampleRouter]) (by norm_num) (by norm_num [sampleRouter])

/-- The code-point comparison is total. -/
theorem charListLe_total : ∀ (as bs : List Char),
    charListLe as bs = true ∨ charListLe bs as = true
  | [], _ => Or.inl rfl
  | _ :: _, [] => Or.inr rfl
  | a :: as, b :: bs => by
    by_cases h1 : a.toNat < b.toNat
    · left
      simp [charListLe, h1]
    · by_cases h2 : b.toNat < a.toNat
      · right
        simp [charListLe, h2]
      · simp only [charListLe, if_neg h1, if_neg h2]
        exact charListLe_total as bs

/-- The code-point comparison is transitive. -/
theorem charListLe_trans : ∀ (as bs cs : List Char),
    charListLe as bs = true → charListLe bs cs = true → charListLe as cs = true
  | [], _, _ => fun _ _ => rfl
  | _ :: _, [], _ => by
    intro h _
    simp [charListLe] at h
  | _ :: _, _ :: _, [] => by
    intro _ h
    simp [charListLe] at h
  | a :: as, b :: bs, c :: cs => by
    intro h1 h2
    simp only [charListLe] at h1 h2 ⊢
    by_cases hab : a.toNat < b.toNat
    · by_cases hbc : b.toNat < c.toNat
      · simp [show a.toNat < c.toNat by omega]
      · by_cases hcb : c.toNat < b.toNat
        · simp [hbc, hcb] at h2
        · simp [show a.toNat < c.toNat by omega]
    · by_cases hba : b.toNat < a.toNat
      · simp [hab, hba] at h1
      · by_cases hbc : b.toNat < c.toNat
        · simp [show a.toNat < c.toNat by omega]
        · by_cases hcb : c.toNat < b.toNat
          · simp [hbc, hcb] at h2
          · simp only [if_neg hab, if_neg hba] at h1
            simp only [if_neg hbc, if_neg hcb] at h2
            simp only [if_neg (show ¬ a.toNat < c.toNat by omega),
              if_neg (show ¬ c.toNat < a.toNat by omega)]
            exact charListLe_trans as bs cs h1 h2

instance : IsTotal ParsedTopic topicLE := ⟨by
  intro a b
  unfold topicLE
  rcases lt_trichotomy (orderKey a.frontmatter) (orderKey b.frontmatter) with h | h | h
  · exact Or.inl (Or.inl h)
  · rcases charListLe_total a.frontmatter.title.toList b.frontmatter.title.toList with ht | ht
    · exact Or.inl (Or.inr ⟨h, ht⟩)
    · exact Or.inr (Or.inr ⟨h.symm, ht⟩)
  · exact Or.inr (Or.inl h)⟩

instance : IsTrans ParsedTopic topicLE := ⟨by
  intro a b c hab hbc
  unfold topicLE at hab hbc ⊢
  rcases hab with h1 | h1
  · rcases hbc with h2 | h2
    · exact Or.inl (lt_trans h1 h2)
    · exact Or.inl (h2.1 ▸ h1)
  · rcases hbc with h2 | h2
    · refine Or.inl ?_
      rw [h1.1]
      exact h2
    · exact Or.inr ⟨h1.1.trans h2.1, charListLe_trans _ _ _ h1.2 h2.2⟩⟩

/-- Claim C4: the build sorts ascending by `(order ?? +∞, title)` — the
output of `sortTopics` is sorted under the comparator (missing `order` is
`+∞` and sorts last, ties fall back to the title comparison) and is a
permutation of the input; on orders `[2, none, 1]` with titles `[B, A, C]`
the result is the order-1 item, the order-2 item, then the missing-order
item. -/
theorem c4_sorted_by_order_then_title :
    (∀ l : List ParsedTopic, List.Sorted topicLE (sortTopics l) ∧ List.Perm (sortTopics l) l) ∧
      sortTopics [ptOrder2B, ptNoOrderA, ptOrder1C] = [ptOrder1C, ptOrder2B, ptNoOrderA] := by
  refine ⟨fun l => ⟨List.sorted_insertionSort topicLE l, List.perm_insertionSort topicLE l⟩, ?_⟩
  rfl

/-- A successful batch parse yields one parsed topic per document. -/
theorem parseAllTopics_length (docs : List (String × String)) (l : List ParsedTopic)
    (h : parseAllTopics docs = .ok l) : l.length = docs.length := by
  induction docs generalizing l with
  | nil =>
    simp only [parseAllTopics] at h
    injection h with h'
    rw [← h']
    rfl
  | cons d ds ih =>
    simp only [parseAllTopics] at h
    cases hp : parseTopicFile d.1 d.2 with
    | error e =>
      rw [hp] at h
      exact Except.noConfusion h
    | ok pt =>
      rw [hp] at h
      cases hr : parseAllTopics ds with
      | error e =>
        rw [hr] at h
        exact Except.noConfusion h
      | ok pts =>
        rw [hr] at h
        injection h with h'
        rw [← h']
        simp [ih pts hr]

/-- A successful `loadTopics` yields exactly one topic and one page per
input document. -/
theorem loadTopics_lengths (docs : List (String × String)) (b : LoadedTopicBundle)
    (h : loadTopics docs = .ok b) :
    b.topics.length = docs.length ∧ b.pages.length = docs.length := by
  unfold loadTopics at h
  cases hp : parseAllTopics docs with
  | error e =>
    rw [hp] at h
    exact Except.noConfusion h
  | ok parsed =>
    rw [hp] at h
    injection h with h'
    have hlen := parseAllTopics_length docs parsed hp
    have hsort : (sortTopics parsed).length = parsed.length :=
      (List.perm_insertionSort topicLE parsed).length_eq
    rw [← h']
    constructor <;> simp [hsort, hlen]

/-- Claim C1, counterexample: a batch of two individually valid documents
that both declare the id `dup` loads successfully — no `DuplicateIdentifier`
error exists anywhere in the source — and both waypoint and page lists are
returned, with the duplicate id appearing twice in each. -/
theorem c1_counterexample :
    (loadTopics [docDupA, docDupB]).map
        (fun b => (b.topics.map (fun t => t.id), b.pages.map (fun p => p.id))) =
      .ok (["dup", "dup"], ["dup", "dup"]) := rfl

/-- Claim C1 (amended): the load performs no duplicate-id check at all.
Whenever the batch load succeeds it returns a waypoint and a page payload
for every document — duplicate ids included — and it never fails because of
an id collision (failure depends only on per-document parsing and
validation). -/
theorem c1_no_duplicate_id_check (docs : List (String × String)) (b : LoadedTopicBundle)
    (h : loadTopics docs = .ok b) :
    b.topics.length = docs.length ∧ b.pages.length = docs.length :=
  loadTopics_lengths docs b h

/-- Claim C1, witness: the amended theorem applied to the colliding batch
`[docDupA, docDupB]`, which loads to `dupBundle`. -/
theorem c1_no_duplicate_id_check_witness :
    dupBundle.topics.length = 2 ∧ dupBundle.pages.length = 2 :=
  c1_no_duplicate_id_check [docDupA, docDupB] dupBundle (by rfl)

/-- Claim C2, counterexample: a valid document whose body is empty after
trimming still gets a page payload from the build — `loadTopics` pushes one
page per document unconditionally; only the renderer's `registerPage` drops
empty-content payloads. -/
theorem c2_counterexample :
    (loadTopics [docEmptyBody]).map (fun b => b.pages.map (fun p => (p.id, p.content))) =
      .ok [("solo", "")] := rfl

/-- Claim C2 (amended): the build emits a page payload for every document
regardless of its body; the panel renderer's `registerPage` then ignores any
payload whose content trims to empty and creates or refreshes a managed
panel for any payload whose content does not, so a managed panel exists for
a document exactly when its body is non-empty after trimming. -/
theorem c2_panel_iff_nonempty_body :
    (∀ (docs : List (String × String)) (b : LoadedTopicBundle),
        loadTopics docs = .ok b → b.pages.length = docs.length) ∧
      (∀ (reg : List ManagedPanel) (p : RenderPagePayload),
        (jsTrim p.content = "" → registerPage reg p = reg) ∧
          (jsTrim p.content ≠ "" → registryHas (registerPage reg p) p.id = true)) := by
  constructor
  · exact fun docs b h => (loadTopics_lengths docs b h).2
  · intro reg p
    constructor
    · intro h
      unfold registerPage
      rw [if_pos h]
    · intro h
      unfold registerPage
      rw [if_neg h]
      by_cases hhas : registryHas reg p.id = true
      · rw [if_pos hhas]
        unfold registryHas at hhas ⊢
        rw [List.any_map]
        rw [List.any_eq_true] at hhas ⊢
        obtain ⟨mp, hmem, hid⟩ := hhas
        refine ⟨mp, hmem, ?_⟩
        by_cases hsame : mp.id = p.id
        · simp [Function.comp, hsame]
        · simp only [Function.comp, if_neg hsame]
          exact hid
      · rw [if_neg hhas]
        unfold registryHas
        simp [List.any_append]

/-- Claim C2, witness: the amended theorem applied to `[docFullBody]` (one
payload for one document), to a blank payload (ignored), and to a non-empty
payload (panel created). -/
theorem c2_panel_iff_nonempty_body_witness :
    fullBundle.pages.length = 1 ∧
      registerPage [] pageBlank = [] ∧
      registryHas (registerPage [] pageHello) pageHello.id = true :=
  ⟨c2_panel_iff_nonempty_body.1 [docFullBody] fullBundle (by rfl),
    (c2_panel_iff_nonempty_body.2 [] pageBlank).1 (by rfl),
    (c2_panel_iff_nonempty_body.2 [] pageHello).2 (by decide)⟩

/-- A string has length zero exactly when it is empty. -/
theorem string_length_eq_zero (s : String) : s.length = 0 ↔ s = "" := by
  cases s with
  | mk data =>
    show data.length = 0 ↔ _
    rw [List.length_eq_zero]
    constructor
    · intro h
      rw [h]
    · intro h
      have hd : ({ data := data } : String).data = ("" : String).data := by rw [h]
      simpa using hd

/-- A non-empty accumulator is a prefix of everything `joinFrom` builds on
top of it. -/
theorem joinFrom_extends (ws : List String) : ∀ (acc : String), acc ≠ "" →
    ∃ t, joinFrom acc ws = acc ++ t := by
  induction ws with
  | nil => exact fun acc _ => ⟨"", (String.append_empty acc).symm⟩
  | cons w ws ih =>
    intro acc hne
    have hlen : ¬ acc.length = 0 := fun h => hne ((string_length_eq_zero acc).mp h)
    show ∃ t, joinFrom (if acc.length = 0 then w else acc ++ (" ") ++ w) ws = acc ++ t
    rw [if_neg hlen]
    have hne2 : acc ++ (" ") ++ w ≠ "" := by
      intro h
      have hl : (acc ++ (" ") ++ w).length = 0 := by
        rw [h]
        rfl
      rw [String.length_append, String.length_append] at hl
      have hsp : (" " : String).length = 1 := rfl
      omega
    obtain ⟨t, ht⟩ := ih (acc ++ (" ") ++ w) hne2
    exact ⟨(" ") ++ w ++ t, by rw [ht]; simp [String.append_assoc]⟩

/-- When the measure is monotone under extension and the whole accumulated
text fits, the greedy filler never breaks: it emits the single joined line
(or nothing when the join is empty). -/
theorem wrapGo_single_line (measure : String → ℚ) (maxWidth : ℚ) (spec : BlockSpec)
    (hmono : ∀ p q : String, measure p ≤ measure (p ++ q)) :
    ∀ (ws : List String) (current : String),
      measure (joinFrom current ws) ≤ maxWidth →
      wrapGo measure maxWidth spec ws current =
        if 0 < (joinFrom current ws).length then
          [{ text := joinFrom current ws, font := spec.font, lineHeight := spec.lineHeight }]
        else [] := by
  intro ws
  induction ws with
  | nil => intro current _; rfl
  | cons w ws ih =>
    intro current hbound
    have hjoin : joinFrom current (w :: ws) =
        joinFrom (if current.length = 0 then w else current ++ (" ") ++ w) ws := rfl
    by_cases hc : current.length = 0
    · rw [hjoin, if_pos hc] at hbound ⊢
      show (if maxWidth < measure (if current.length = 0 then w else current ++ (" ") ++ w) ∧
          0 < current.length then _ else wrapGo measure maxWidth spec ws
            (if current.length = 0 then w else current ++ (" ") ++ w)) = _
      rw [if_pos hc]
      rw [if_neg (fun hh => by omega)]
      exact ih w hbound
    · rw [hjoin, if_neg hc] at hbound ⊢
      show (if maxWidth < measure (if current.length = 0 then w else current ++ (" ") ++ w) ∧
          0 < current.length then _ else wrapGo measure maxWidth spec ws
            (if current.length = 0 then w else current ++ (" ") ++ w)) = _
      rw [if_neg hc]
      have hfit : ¬ (maxWidth < measure (current ++ (" ") ++ w) ∧ 0 < current.length) := by
        intro hh
        have hne2 : current ++ (" ") ++ w ≠ "" := by
          intro h
          have hl : (current ++ (" ") ++ w).length = 0 := by
            rw [h]
            rfl
          rw [String.length_append, String.length_append] at hl
          have hsp : (" " : String).length = 1 := rfl
          omega
        obtain ⟨t, ht⟩ := joinFrom_extends ws (current ++ (" ") ++ w) hne2
        have := hmono (current ++ (" ") ++ w) t
        rw [← ht] at this
        exact absurd hh.1 (not_lt.mpr (le_trans this hbound))
      rw [if_neg hfit]
      exact ih (current ++ (" ") ++ w) hbound

/-- Claim C8: (a) for a text block whose words each fit and whose whole
accumulated text measures at or under the width limit (under any measure
monotone in extension, as canvas text measurement is), `wrapText` returns
exactly one line; (b) a single word measuring wider than the limit is
emitted alone on its own line, never split or hyphenated. -/
theorem c8_wrapText_one_line_and_wide_word :
    (∀ (measure : String → ℚ) (maxWidth : ℚ) (spec : BlockSpec) (text : String),
        (∀ p q : String, measure p ≤ measure (p ++ q)) →
        (∀ w ∈ splitWs text, measure w ≤ maxWidth) →
        measure (joinFrom ("") (splitWs text)) ≤ maxWidth →
        (wrapText measure text spec maxWidth).length = 1) ∧
      (∀ (measure : String → ℚ) (maxWidth : ℚ) (spec : BlockSpec) (w : String),
        splitWs w = [w] → maxWidth < measure w →
        wrapText measure w spec maxWidth =
          [{ text := w, font := spec.font, lineHeight := spec.lineHeight }]) := by
  constructor
  · intro measure maxWidth spec text hmono _ hbound
    simp only [wrapText]
    rw [wrapGo_single_line measure maxWidth spec hmono (splitWs text) ("") hbound]
    by_cases hj : 0 < (joinFrom ("") (splitWs text)).length
    · rw [if_pos hj]
      simp
    · rw [if_neg hj]
      simp
  · intro measure maxWidth spec w hsplit hwide
    have h0 : ("" : String).length = 0 := rfl
    have h1 : wrapGo measure maxWidth spec [w] ("") =
        if 0 < w.length then [{ text := w, font := spec.font, lineHeight := spec.lineHeight }]
        else [] := by
      simp [wrapGo, h0]
    simp only [wrapText, hsplit, h1]
    by_cases hw : 0 < w.length
    · rw [if_pos hw]
      simp
    · rw [if_neg hw]
      have hwe : w = "" := (string_length_eq_zero w).mp (by omega)
      simp [hwe]

/-- Claim C8, witness: with the character-count measure, `hi there` wraps to
one line under limit 100, and the single wide word `verylongword` is emitted
alone under limit 3. -/
theorem c8_wrapText_one_line_and_wide_word_witness :
    (wrapText strMeasure ("hi there") wSpec 100).length = 1 ∧
      wrapText strMeasure ("verylongword") wSpec 3 =
        [{ text := "verylongword", font := wSpec.font, lineHeight := wSpec.lineHeight }] := by
  constructor
  · refine c8_wrapText_one_line_and_wide_word.1 strMeasure 100 wSpec ("hi there") ?_ ?_ ?_
    · intro p q
      simp only [strMeasure, String.length_append]
      push_cast
      linarith [(by positivity : (0 : ℚ) ≤ (q.length : ℚ))]
    · intro w hw
      have hs : splitWs ("hi there") = ["hi", "there"] := rfl
      rw [hs] at hw
      simp only [List.mem_cons, List.not_mem_nil, or_false] at hw
      rcases hw with h | h
      · rw [h]
        norm_num [strMeasure, show ("hi" : String).length = 2 from rfl]
      · rw [h]
        norm_num [strMeasure, show ("there" : String).length = 5 from rfl]
    · have hj : joinFrom ("") (splitWs ("hi there")) = "hi there" := rfl
      rw [hj]
      norm_num [strMeasure, show ("hi there" : String).length = 8 from rfl]
  · refine c8_wrapText_one_line_and_wide_word.2 strMeasure 3 wSpec ("verylongword") (by rfl) ?_
    norm_num [strMeasure, show ("verylongword" : String).length = 12 from rfl]

/-- `registerPage` preserves the stored ids (replace keeps every id, append
adds the new one), stated for the replace branch's mapper. -/
theorem registerPage_replace_id (p : RenderPagePayload) (mp : ManagedPanel) :
    (if mp.id = p.id then
        { mp with fallbackTarget := p.fallbackTarget, anchorId := p.anchorId }
      else mp).id = mp.id := by
  by_cases h : mp.id = p.id <;> simp [h]

/-- The replace branch's mapper also preserves activity. -/
theorem registerPage_replace_isActive (p : RenderPagePayload) (mp : ManagedPanel) :
    (if mp.id = p.id then
        { mp with fallbackTarget := p.fallbackTarget, anchorId := p.anchorId }
      else mp).isActive = mp.isActive := by
  by_cases h : mp.id = p.id <;> simp [h]

/-- `activeCount` as a `countP`. -/
theorem activeCount_eq_countP (reg : List ManagedPanel) :
    activeCount reg = reg.countP (fun p => p.isActive) := by
  unfold activeCount
  rw [List.countP_eq_length_filter]

/-- The invariant maintained by every public call of the page manager:
ids are duplicate-free (it is a `Map`) and at most one panel is active. -/
def panelInv (reg : List ManagedPanel) : Prop :=
  (reg.map (fun p => p.id)).Nodup ∧ activeCount reg ≤ 1

/-- `update` keeps every panel's id. -/
theorem updatePanels_map_id (r : String → Option Vec3J) (reg : List ManagedPanel) :
    (updatePanels r reg).map (fun p => p.id) = reg.map (fun p => p.id) := by
  unfold updatePanels
  rw [List.map_map]
  exact List.map_congr_left (fun p _ => rfl)

/-- `update` keeps every panel's activity state. -/
theorem updatePanels_countP_isActive (r : String → Option Vec3J) (reg : List ManagedPanel) :
    (updatePanels r reg).countP (fun p => p.isActive) = reg.countP (fun p => p.isActive) := by
  unfold updatePanels
  rw [List.countP_map]
  exact List.countP_congr (fun p _ => Iff.rfl)

/-- One public call preserves the registry invariant. -/
theorem runPanelOp_preserves (reg : List ManagedPanel) (op : PanelOp)
    (h : panelInv reg) : panelInv (runPanelOp reg op) := by
  obtain ⟨hnd, hcount⟩ := h
  cases op with
  | register p =>
    show panelInv (registerPage reg p)
    unfold registerPage
    by_cases h1 : jsTrim p.content = ""
    · rw [if_pos h1]
      exact ⟨hnd, hcount⟩
    · rw [if_neg h1]
      by_cases h2 : registryHas reg p.id = true
      · rw [if_pos h2]
        constructor
        · rw [List.map_map]
          have hmap : reg.map ((fun p => p.id) ∘ (fun mp =>
              if mp.id = p.id then
                { mp with fallbackTarget := p.fallbackTarget, anchorId := p.anchorId }
              else mp)) = reg.map (fun p => p.id) :=
            List.map_congr_left (fun mp _ => registerPage_replace_id p mp)
          rw [hmap]
          exact hnd
        · rw [activeCount_eq_countP, List.countP_map]
          rw [activeCount_eq_countP] at hcount
          have hcongr : reg.countP ((fun p => p.isActive) ∘ (fun mp =>
              if mp.id = p.id then
                { mp with fallbackTarget := p.fallbackTarget, anchorId := p.anchorId }
              else mp)) = reg.countP (fun p => p.isActive) := by
            apply List.countP_congr
            intro mp _
            simp [Function.comp, registerPage_replace_isActive p mp]
          rw [hcongr]
          exact hcount
      · rw [if_neg h2]
        constructor
        · rw [List.map_append, List.nodup_append]
          refine ⟨hnd, List.nodup_singleton _, ?_⟩
          intro x hx hx2
          simp only [List.map_cons, List.map_nil, List.mem_singleton] at hx2
          unfold registryHas at h2
          rw [List.any_eq_true] at h2
          push_neg at h2
          rw [List.mem_map] at hx
          obtain ⟨mp, hmem, hid⟩ := hx
          exact h2 mp hmem (by rw [beq_iff_eq, hid, hx2])
        · rw [activeCount_eq_countP, List.countP_append]
          rw [activeCount_eq_countP] at hcount
          simpa using hcount
  | setActive tid =>
    show panelInv (setActivePage reg tid)
    unfold setActivePage
    constructor
    · rw [List.map_map]
      have hmap : reg.map ((fun p => p.id) ∘ (fun p =>
          { p with
            isActive :=
              match tid with
              | none => false
              | some t => p.id == t })) = reg.map (fun p => p.id) :=
        List.map_congr_left (fun p _ => rfl)
      rw [hmap]
      exact hnd
    · rw [activeCount_eq_countP, List.countP_map]
      cases tid with
      | none =>
        have h0 : reg.countP ((fun p => p.isActive) ∘ (fun p =>
            { p with
              isActive :=
                match (none : Option String) with
                | none => false
                | some t => p.id == t })) = 0 := by
          rw [List.countP_eq_zero]
          intro a _
          simp [Function.comp]
        rw [h0]
        omega
      | some t =>
        have hc : reg.countP ((fun p => p.isActive) ∘ (fun p =>
            { p with
              isActive :=
                match (some t : Option String) with
                | none => false
                | some t => p.id == t })) = reg.countP (fun p => p.id == t) :=
          List.countP_congr (fun p _ => Iff.rfl)
        rw [hc]
        have hcnt : reg.countP (fun p => p.id == t) = (reg.map (fun p => p.id)).count t := by
          rw [List.count_eq_countP, List.countP_map]
          rfl
        rw [hcnt]
        exact List.nodup_iff_count_le_one.mp hnd t
  | update r =>
    show panelInv (updatePanels r reg)
    constructor
    · rw [updatePanels_map_id]
      exact hnd
    · rw [activeCount_eq_countP, updatePanels_countP_isActive]
      rw [activeCount_eq_countP] at hcount
      exact hcount

/-- Any call sequence from the empty registry maintains the invariant. -/
theorem runPanelOps_inv (ops : List PanelOp) : panelInv (runPanelOps ops) := by
  unfold runPanelOps
  have aux : ∀ (ops2 : List PanelOp) (reg : List ManagedPanel),
      panelInv reg → panelInv (ops2.foldl runPanelOp reg) := by
    intro ops2
    induction ops2 with
    | nil => exact fun reg h => h
    | cons op rest ih =>
      intro reg h
      exact ih (runPanelOp reg op) (runPanelOp_preserves reg op h)
  exact aux ops [] ⟨List.nodup_nil, by simp [activeCount]⟩

/-- Claim C9: `setActivePage` makes exactly the matching panel active and
all others inactive (`null` clears all); `registerPage` never activates a
panel (it preserves every activity bit or appends an inactive panel);
`update` never changes activity; and consequently, along any sequence of
`registerPage`/`setActivePage`/`update` calls from the empty registry, at
most one managed panel is ever active. -/
theorem c9_at_most_one_active_panel :
    (∀ (reg : List ManagedPanel) (tid : Option String),
        (setActivePage reg tid).all (fun p => p.isActive == (tid == some p.id)) = true) ∧
      (∀ (reg : List ManagedPanel) (p : RenderPagePayload),
          (registerPage reg p).map (fun mp => mp.isActive) = reg.map (fun mp => mp.isActive) ∨
            (registerPage reg p).map (fun mp => mp.isActive) =
              reg.map (fun mp => mp.isActive) ++ [false]) ∧
      (∀ (r : String → Option Vec3J) (reg : List ManagedPanel),
          (updatePanels r reg).map (fun mp => mp.isActive) = reg.map (fun mp => mp.isActive)) ∧
      (∀ ops : List PanelOp, activeCount (runPanelOps ops) ≤ 1) := by
  refine ⟨?_, ?_, ?_, ?_⟩
  · intro reg tid
    unfold setActivePage
    rw [List.all_map, List.all_eq_true]
    intro p _
    cases tid with
    | none => simp [Function.comp]
    | some t =>
      simp only [Function.comp]
      rw [beq_iff_eq, Bool.eq_iff_iff]
      simp only [beq_iff_eq, Option.some.injEq]
      exact eq_comm
  · intro reg p
    unfold registerPage
    by_cases h1 : jsTrim p.content = ""
    · rw [if_pos h1]
      exact Or.inl rfl
    · rw [if_neg h1]
      by_cases h2 : registryHas reg p.id = true
      · rw [if_pos h2]
        left
        rw [List.map_map]
        exact List.map_congr_left (fun mp _ => registerPage_replace_isActive p mp)
      · rw [if_neg h2]
        right
        simp
  · intro r reg
    unfold updatePanels
    rw [List.map_map]
    exact List.map_congr_left (fun p _ => rfl)
  · exact fun ops => (runPanelOps_inv ops).2
